import Mathlib

/-!
# The movie-recommendation front end (`public/script.js`)

A shallow embedding of the browser script: the three lookup tables and
`populateSelects`, the readiness poll `checkServerStatus`, the three query
operations `fetchSearch`, `fetchFilteredRecommendations` and
`fetchPersonalRecommendations`, and the renderer `displayMovies`.

Conventions of the embedding.

* The script's globals (`moviesLoaded`) and the parts of the page it reads or
  writes are the fields of `State`.  The elements the script looks up with
  `getElementById` are taken to exist.
* Effects are logged in the state: `requests` (every call of `fetch`),
  `alerts` (every call of `alert`), `timers` (every pending `setTimeout`) and
  `awaiting` (the asynchronous functions suspended at `await fetch(...)`).
* An `async` function is split at its first `await`: the function of the same
  name runs the synchronous prefix, `<name>_resume` runs the rest once the
  reply is known.  An exception inside an `async` function rejects its
  promise and never reaches the caller; the model keeps the state reached at
  the point of the throw.
* JavaScript values that come from JSON are `Json`; `Option Json` adds
  `undefined` (`none`).  Numbers are IEEE doubles (`Float`); how the platform
  prints them is a parameter (`Platform`).
* Strings are Lean strings (sequences of Unicode scalar values), which are the
  JavaScript strings without lone surrogates.
-/

namespace RecommenEngine

/-! ## JavaScript values -/

/-- A value produced by `JSON.parse` or `Response.json`. -/
inductive Json where
  | null
  | bool (b : Bool)
  | num (x : Float)
  | str (s : String)
  | arr (xs : List Json)
  | obj (kvs : List (String × Json))

/-- A JavaScript value that may be `undefined` (`none`). -/
abbrev JsValue := Option Json

/-- How the platform prints numbers: `String(x)` and `x.toFixed(1)`. -/
structure Platform where
  numberToString : Float → String
  toFixed1 : Float → String

/-- ToBoolean on a JSON value. -/
def Json.truthy : Json → Bool
  | .null => false
  | .bool b => b
  | .num x => !(x == 0 || x.isNaN)
  | .str s => decide (s ≠ "")
  | .arr _ => true
  | .obj _ => true

/-- ToBoolean: `undefined` is falsy. -/
def truthy : JsValue → Bool
  | none => false
  | some v => v.truthy

/-- The own property `k` of an object literal `kvs`: a later duplicate key
overrides an earlier one. -/
def lookupKey (k : String) : List (String × Json) → JsValue
  | [] => none
  | (k', v) :: rest =>
    match lookupKey k rest with
    | some w => some w
    | none => if k' = k then some v else none

/-- The property read `v.k` for a data key `k` (one that no built-in prototype
defines): `none` is the TypeError raised on `null`, `some none` is
`undefined`. -/
def getProp (v : Json) (k : String) : Option JsValue :=
  match v with
  | .null => none
  | .obj kvs => some (lookupKey k kvs)
  | _ => some none

/-- The property read `v.k` on a value known not to be `null`. -/
def lookupProp (v : Json) (k : String) : JsValue :=
  match v with
  | .obj kvs => lookupKey k kvs
  | _ => none

mutual
/-- ToString on a JSON value; `none` is the TypeError raised for an object
whose own `toString` property shadows `Object.prototype.toString`. -/
def Json.toStr (P : Platform) : Json → Option String
  | .null => some "null"
  | .bool b => some (if b then "true" else "false")
  | .num x => some (P.numberToString x)
  | .str s => some s
  | .arr xs => Json.joinWith P "," xs
  | .obj kvs => if (lookupKey "toString" kvs).isSome then none else some "[object Object]"
/-- The method `Array.prototype.join(sep)` on the elements `xs`. -/
def Json.joinWith (P : Platform) (sep : String) : List Json → Option String
  | [] => some ""
  | [x] => Json.elemStr P x
  | x :: y :: rest =>
    match Json.elemStr P x with
    | none => none
    | some a =>
      match Json.joinWith P sep (y :: rest) with
      | none => none
      | some b => some (a ++ sep ++ b)
/-- How `join` prints one element: `null` gives the empty string. -/
def Json.elemStr (P : Platform) : Json → Option String
  | .null => some ""
  | .bool b => some (if b then "true" else "false")
  | .num x => some (P.numberToString x)
  | .str s => some s
  | .arr xs => Json.joinWith P "," xs
  | .obj kvs => if (lookupKey "toString" kvs).isSome then none else some "[object Object]"
end

/-- ToString on a possibly undefined value, as in a template literal. -/
def toStr (P : Platform) : JsValue → Option String
  | none => some "undefined"
  | some v => v.toStr P

/-! ## Strings -/

/-- The base address of the API (`API_URL`). -/
def API_URL : String := "http://localhost:5000/api"

/-- The code points `String.prototype.trim` removes: WhiteSpace and
LineTerminator of ECMAScript. -/
def isJsWhiteSpace (c : Char) : Bool :=
  let n := c.toNat
  n = 0x09 || n = 0x0A || n = 0x0B || n = 0x0C || n = 0x0D || n = 0x20 || n = 0xA0 ||
  n = 0x1680 || (0x2000 ≤ n && n ≤ 0x200A) || n = 0x2028 || n = 0x2029 || n = 0x202F ||
  n = 0x205F || n = 0x3000 || n = 0xFEFF

/-- The characters of `trim`: white space dropped at both ends. -/
def trimChars (cs : List Char) : List Char :=
  ((cs.dropWhile isJsWhiteSpace).reverse.dropWhile isJsWhiteSpace).reverse

/-- The method `String.prototype.trim`. -/
def trim (s : String) : String := String.mk (trimChars s.data)

/-- The method `String.prototype.toLowerCase` on the ASCII letters; the tables
of this script hold ASCII only. -/
def toLowerCase (s : String) : String := String.mk (s.data.map Char.toLower)

/-- The UTF-8 bytes of a code point. -/
def utf8Bytes (c : Char) : List Nat :=
  let n := c.toNat
  if n < 0x80 then [n]
  else if n < 0x800 then [0xC0 + n / 64, 0x80 + n % 64]
  else if n < 0x10000 then [0xE0 + n / 4096, 0x80 + n / 64 % 64, 0x80 + n % 64]
  else [0xF0 + n / 262144, 0x80 + n / 4096 % 64, 0x80 + n / 64 % 64, 0x80 + n % 64]

/-- One upper-case hexadecimal digit. -/
def hexDigit (d : Nat) : Char :=
  if d < 10 then Char.ofNat (48 + d) else Char.ofNat (55 + d)

/-- The escape `%XY` of a byte. -/
def percentByte (b : Nat) : List Char := ['%', hexDigit (b / 16), hexDigit (b % 16)]

/-- ASCII letters and digits. -/
def isAlnum (c : Char) : Bool :=
  ('a' ≤ c && c ≤ 'z') || ('A' ≤ c && c ≤ 'Z') || ('0' ≤ c && c ≤ '9')

/-- The characters `encodeURIComponent` leaves as they are. -/
def isUriUnreserved (c : Char) : Bool :=
  isAlnum c || c = '-' || c = '_' || c = '.' || c = '!' || c = '~' || c = '*' ||
  c = Char.ofNat 39 || c = '(' || c = ')'

/-- The function `encodeURIComponent` on the characters of a string. -/
def encodeURIComponentChars (cs : List Char) : List Char :=
  cs.flatMap fun c => if isUriUnreserved c then [c] else (utf8Bytes c).flatMap percentByte

/-- The function `encodeURIComponent`. -/
def encodeURIComponent (s : String) : String := String.mk (encodeURIComponentChars s.data)

/-- The characters the `application/x-www-form-urlencoded` serializer leaves
as they are. -/
def isFormSafe (c : Char) : Bool :=
  isAlnum c || c = '*' || c = '-' || c = '.' || c = '_'

/-- One character in the `application/x-www-form-urlencoded` serializer: a
space becomes `+`, every other unsafe character is escaped byte by byte. -/
def formEncodeChar (c : Char) : List Char :=
  if c = ' ' then ['+'] else if isFormSafe c then [c] else (utf8Bytes c).flatMap percentByte

/-- The `application/x-www-form-urlencoded` encoding of a name or value. -/
def formEncodeChars (cs : List Char) : List Char := cs.flatMap formEncodeChar

/-- The `application/x-www-form-urlencoded` encoding of a string. -/
def formEncode (s : String) : String := String.mk (formEncodeChars s.data)

/-- A `URLSearchParams` object: its list of name-value pairs. -/
abbrev URLSearchParams := List (String × String)

/-- The method `URLSearchParams.append`. -/
def URLSearchParams.append (p : URLSearchParams) (name value : String) : URLSearchParams :=
  p ++ [(name, value)]

/-- One pair as `URLSearchParams.toString` writes it: `name=value`, both
encoded. -/
def pairChars (p : String × String) : List Char :=
  formEncodeChars p.1.data ++ '=' :: formEncodeChars p.2.data

/-- The characters of `URLSearchParams.toString`: the pairs, with `&` between
them. -/
def serializeChars (ps : List (String × String)) : List Char :=
  List.intercalate ['&'] (ps.map pairChars)

/-- The method `URLSearchParams.toString`. -/
def URLSearchParams.toString (p : URLSearchParams) : String := String.mk (serializeChars p)

/-- The value of a hexadecimal digit. -/
def hexVal (c : Char) : Option Nat :=
  if '0' ≤ c && c ≤ '9' then some (c.toNat - 48)
  else if 'a' ≤ c && c ≤ 'f' then some (c.toNat - 87)
  else if 'A' ≤ c && c ≤ 'F' then some (c.toNat - 55)
  else none

/-- What one character of an urlencoded string stands for, when it does not
start an escape: `+` is a space, any other character its UTF-8 bytes. -/
def plainBytes (c : Char) : List Nat := if c = '+' then [0x20] else utf8Bytes c

/-- The bytes an urlencoded name or value stands for: `+` is a space, `%XY`
the byte `XY`. -/
def formDecodeChars : List Char → List Nat
  | [] => []
  | [c] => plainBytes c
  | [c, d] => plainBytes c ++ plainBytes d
  | c :: a :: b :: rest =>
    if c = '%' then
      match hexVal a, hexVal b with
      | some x, some y => (16 * x + y) :: formDecodeChars rest
      | _, _ => plainBytes c ++ formDecodeChars (a :: b :: rest)
    else plainBytes c ++ formDecodeChars (a :: b :: rest)

/-- One piece `name=value` of a query string, decoded; a piece without `=`
is a name with an empty value. -/
def parsePiece (piece : List Char) : List Nat × List Nat :=
  (formDecodeChars (piece.takeWhile fun c => c != '='),
    formDecodeChars (piece.dropWhile fun c => c != '=').tail)

/-- The `application/x-www-form-urlencoded` parser, as the server reads a
query string: the non-empty pieces between `&`, each split at its first `=`
and decoded to bytes. -/
def parseQueryChars (cs : List Char) : List (List Nat × List Nat) :=
  ((cs.splitOn '&').filter fun piece => piece != []).map parsePiece

/-- The parameters a query string carries, as UTF-8 bytes. -/
def parseQuery (query : String) : List (List Nat × List Nat) := parseQueryChars query.data

/-- The UTF-8 bytes of a string. -/
def utf8 (s : String) : List Nat := s.data.flatMap utf8Bytes

/-! ## The lookup tables -/

/-- The table `GENRES`. -/
def GENRES : List String :=
  ["Action", "Adventure", "Animation", "Biography", "Comedy", "Crime",
   "Documentary", "Drama", "Family", "Fantasy", "Film-Noir", "History",
   "Horror", "Music", "Musical", "Mystery", "Romance", "Sci-Fi",
   "Short", "Sport", "Thriller", "War", "Western"]

/-- The table `REGIONS`, as `Object.entries` lists it (insertion order). -/
def REGIONS : List (String × String) :=
  [("US", "United States"), ("GB", "United Kingdom"), ("FR", "France"),
   ("DE", "Germany"), ("ES", "Spain"), ("IT", "Italy"), ("JP", "Japan"),
   ("KR", "South Korea"), ("CN", "China"), ("IN", "India")]

/-- The table `LANGS`, as `Object.entries` lists it (insertion order). -/
def LANGS : List (String × String) :=
  [("en", "English"), ("fr", "French"), ("de", "German"), ("es", "Spanish"),
   ("it", "Italian"), ("ja", "Japanese"), ("ko", "Korean"), ("zh", "Chinese"),
   ("hi", "Hindi"), ("pt", "Portuguese")]

/-! ## `JSON.parse` -/

/-- The double quote. -/
def dquote : Char := Char.ofNat 34

/-- The backslash. -/
def backslash : Char := Char.ofNat 92

/-- The opening brace. -/
def lbrace : Char := Char.ofNat 123

/-- The closing brace. -/
def rbrace : Char := Char.ofNat 125

/-- JSON white space. -/
def isJsonWs (c : Char) : Bool := c = ' ' || c = '\t' || c = '\n' || c = '\r'

/-- Drops leading JSON white space. -/
def skipWs (cs : List Char) : List Char := cs.dropWhile isJsonWs

/-- The code unit written by the four digits of a `\u` escape. -/
def hex4 (a b c d : Char) : Option Nat :=
  match hexVal a, hexVal b, hexVal c, hexVal d with
  | some w, some x, some y, some z => some (((w * 16 + x) * 16 + y) * 16 + z)
  | _, _, _, _ => none

/-- The character a one-letter escape stands for. -/
def escapeChar (c : Char) : Option Char :=
  if c = dquote then some dquote
  else if c = backslash then some backslash
  else if c = '/' then some '/'
  else if c = 'b' then some (Char.ofNat 8)
  else if c = 'f' then some (Char.ofNat 12)
  else if c = 'n' then some '\n'
  else if c = 'r' then some '\r'
  else if c = 't' then some '\t'
  else none

/-- The body of a string literal, after its opening quote, as code units
(a character that is not escaped stands for its code point), and the input
left after the closing quote. -/
def parseStringUnits : Nat → List Char → Option (List Nat × List Char)
  | 0, _ => none
  | _ + 1, [] => none
  | f + 1, c :: rest =>
    if c = dquote then some ([], rest)
    else if c = backslash then
      match rest with
      | [] => none
      | e :: rest' =>
        if e = 'u' then
          match rest' with
          | a :: b :: c' :: d :: rest'' =>
            match hex4 a b c' d with
            | some u => (parseStringUnits f rest'').map fun p => (u :: p.1, p.2)
            | none => none
          | _ => none
        else
          match escapeChar e with
          | some ch => (parseStringUnits f rest').map fun p => (ch.toNat :: p.1, p.2)
          | none => none
    else if c.toNat < 0x20 then none
    else (parseStringUnits f rest).map fun p => (c.toNat :: p.1, p.2)

/-- One code unit as a character: a lone surrogate, which a Lean string
cannot hold, becomes U+FFFD. -/
def unitToChar (u : Nat) : Char :=
  if 0xD800 ≤ u && u ≤ 0xDFFF then Char.ofNat 0xFFFD else Char.ofNat u

/-- Code units to characters: a surrogate pair is one character. -/
def unitsToChars : List Nat → List Char
  | [] => []
  | [u] => [unitToChar u]
  | u :: l :: rest =>
    if (0xD800 ≤ u && u ≤ 0xDBFF) && (0xDC00 ≤ l && l ≤ 0xDFFF) then
      Char.ofNat (0x10000 + (u - 0xD800) * 0x400 + (l - 0xDC00)) :: unitsToChars rest
    else unitToChar u :: unitsToChars (l :: rest)

/-- A string literal, after its opening quote. -/
def parseString (cs : List Char) : Option (String × List Char) :=
  (parseStringUnits (cs.length + 1) cs).map fun p => (String.mk (unitsToChars p.1), p.2)

/-- The natural number written by decimal digits. -/
def digitsToNat (ds : List Char) : Nat := ds.foldl (fun n d => 10 * n + (d.toNat - 48)) 0

/-- The double nearest to `m * 10 ^ e`. -/
def scientific (m : Nat) (e : Int) : Float :=
  if e < 0 then OfScientific.ofScientific m true (-e).toNat
  else OfScientific.ofScientific m false e.toNat

/-- The exponent part of a number, if there is one, and the input after it. -/
def parseExponent (cs : List Char) : Option (Int × List Char) :=
  match cs with
  | c :: rest =>
    if c = 'e' || c = 'E' then
      let neg := rest.head? = some '-'
      let rest := if rest.head? = some '-' || rest.head? = some '+' then rest.tail else rest
      let ds := rest.takeWhile Char.isDigit
      if ds = [] then none
      else some (if neg then -(digitsToNat ds : Int) else digitsToNat ds, rest.dropWhile Char.isDigit)
    else some (0, cs)
  | [] => some (0, cs)

/-- The fraction part of a number, if there is one, and the input after it. -/
def parseFraction (cs : List Char) : Option (List Char × List Char) :=
  match cs with
  | c :: rest =>
    if c = '.' then
      let ds := rest.takeWhile Char.isDigit
      if ds = [] then none else some (ds, rest.dropWhile Char.isDigit)
    else some ([], cs)
  | [] => some ([], cs)

/-- A number without its sign: integer part, fraction, exponent. -/
def parseUnsigned (cs : List Char) : Option (Float × List Char) :=
  match cs with
  | [] => none
  | c :: rest =>
    if !c.isDigit then none
    else
      let intDigits := if c = '0' then [c] else c :: rest.takeWhile Char.isDigit
      let rest := if c = '0' then rest else rest.dropWhile Char.isDigit
      match parseFraction rest with
      | none => none
      | some (frac, rest) =>
        match parseExponent rest with
        | none => none
        | some (e, rest) =>
          some (scientific (digitsToNat (intDigits ++ frac)) (e - frac.length), rest)

/-- A number. -/
def parseNumber (cs : List Char) : Option (Float × List Char) :=
  match cs with
  | c :: rest =>
    if c = '-' then (parseUnsigned rest).map fun p => (-p.1, p.2) else parseUnsigned cs
  | [] => none

/-- The elements of an array after the first bracket, given the value parser
`pv`, up to and including the closing bracket. -/
def parseElems (pv : List Char → Option (Json × List Char)) :
    Nat → List Char → Option (List Json × List Char)
  | 0, _ => none
  | f + 1, cs =>
    match pv cs with
    | none => none
    | some (v, rest) =>
      match skipWs rest with
      | c :: rest' =>
        if c = ',' then (parseElems pv f rest').map fun p => (v :: p.1, p.2)
        else if c = ']' then some ([v], rest')
        else none
      | [] => none

/-- The members of an object after the opening brace, given the value parser
`pv`, up to and including the closing brace. -/
def parseMembers (pv : List Char → Option (Json × List Char)) :
    Nat → List Char → Option (List (String × Json) × List Char)
  | 0, _ => none
  | f + 1, cs =>
    match skipWs cs with
    | q :: rest =>
      if q = dquote then
        match parseString rest with
        | none => none
        | some (k, rest) =>
          match skipWs rest with
          | c :: rest =>
            if c = ':' then
              match pv rest with
              | none => none
              | some (v, rest) =>
                match skipWs rest with
                | d :: rest' =>
                  if d = ',' then (parseMembers pv f rest').map fun p => ((k, v) :: p.1, p.2)
                  else if d = rbrace then some ([(k, v)], rest')
                  else none
                | [] => none
            else none
          | [] => none
      else none
    | [] => none

/-- A JSON value at the head of the input, after optional white space, with
`fuel` bounding the nesting. -/
def parseValue : Nat → List Char → Option (Json × List Char)
  | 0, _ => none
  | f + 1, cs =>
    match skipWs cs with
    | [] => none
    | c :: rest =>
      if c = 'n' then
        match rest with
        | 'u' :: 'l' :: 'l' :: rest' => some (Json.null, rest')
        | _ => none
      else if c = 't' then
        match rest with
        | 'r' :: 'u' :: 'e' :: rest' => some (Json.bool true, rest')
        | _ => none
      else if c = 'f' then
        match rest with
        | 'a' :: 'l' :: 's' :: 'e' :: rest' => some (Json.bool false, rest')
        | _ => none
      else if c = dquote then (parseString rest).map fun p => (Json.str p.1, p.2)
      else if c = '[' then
        match skipWs rest with
        | ']' :: rest' => some (Json.arr [], rest')
        | _ => (parseElems (parseValue f) f rest).map fun p => (Json.arr p.1, p.2)
      else if c = lbrace then
        match skipWs rest with
        | [] => none
        | d :: rest' =>
          if d = rbrace then some (Json.obj [], rest')
          else (parseMembers (parseValue f) f rest).map fun p => (Json.obj p.1, p.2)
      else (parseNumber (c :: rest)).map fun p => (Json.num p.1, p.2)

/-- The function `JSON.parse`: `none` is the SyntaxError. -/
def JSON_parse (text : String) : Option Json :=
  match parseValue (2 * text.length + 2) text.data with
  | some (v, rest) => if skipWs rest = [] then some v else none
  | none => none

/-! ## The page -/

/-- A child node of a list container. -/
inductive Node where
  /-- The nodes the HTML parser builds from markup assigned to `innerHTML`. -/
  | parsed (html : String)
  /-- An element made by `createElement` and attached by `appendChild`. -/
  | element (tag className innerHTML : String)
  deriving DecidableEq

/-- An `option` element of a dropdown. -/
structure OptionEl where
  value : String
  textContent : String
  deriving DecidableEq

/-- A `select` element: its options, and what `.value` reads (the value of
the option the user has selected). -/
structure Select where
  options : List OptionEl
  value : String
  deriving DecidableEq

/-- A call of `fetch`: `body` is the value whose `JSON.stringify` text is
sent. -/
structure Request where
  method : String
  url : String
  headers : List (String × String)
  body : Option Json

/-- The functions given to `setTimeout`. -/
inductive Callback where
  | checkServerStatus
  deriving DecidableEq

/-- A pending `setTimeout(callback, delay)`. -/
structure Timer where
  callback : Callback
  delay : Nat
  deriving DecidableEq

/-- The asynchronous functions, as they wait at `await fetch(...)`. -/
inductive Op where
  | status
  | search
  | filtered
  | personal
  deriving DecidableEq

/-- What comes back for a `fetch` followed by `res.json()`. -/
inductive Reply where
  /-- The promise of `fetch` rejects: no response arrived. -/
  | rejected
  /-- A response arrived and `res.json()` rejects: the body is not JSON. -/
  | unparsable
  /-- A response arrived and its body is the JSON value `d`. -/
  | data (d : Json)

/-- The global `moviesLoaded`, the page, the local storage and the logged
effects. -/
structure State where
  moviesLoaded : Bool
  loadingScreenDisplay : String
  loadingText : String
  searchInput : String
  genreSelect : Select
  regionSelect : Select
  languageSelect : Select
  movieList : List Node
  personalList : List Node
  resultsTitle : String
  personalTitle : String
  localStorage : String → Option String
  alerts : List String
  requests : List Request
  timers : List Timer
  awaiting : List Op

/-- The assignment `target.innerHTML = html`: the old children go. -/
def setInnerHTML (_old : List Node) (html : String) : List Node :=
  if html = "" then [] else [Node.parsed html]

/-- The call `target.appendChild(node)`. -/
def appendChild (children : List Node) (node : Node) : List Node := children ++ [node]

/-- The call `select.appendChild(opt)`. -/
def Select.appendChild (sel : Select) (opt : OptionEl) : Select :=
  { sel with options := sel.options ++ [opt] }

/-! ## `populateSelects` -/

/-- The loop `GENRES.forEach(...)` on the genre dropdown. -/
def populateGenres (sel : Select) : Select :=
  GENRES.foldl (fun sel g => sel.appendChild ⟨toLowerCase g, g⟩) sel

/-- The loop `Object.entries(table).forEach(...)` on a dropdown. -/
def populateEntries (table : List (String × String)) (sel : Select) : Select :=
  table.foldl
    (fun sel e => sel.appendChild ⟨toLowerCase e.1, e.2 ++ " (" ++ e.1 ++ ")"⟩) sel

/-- The function `populateSelects`. -/
def populateSelects (s : State) : State :=
  { s with
    genreSelect := populateGenres s.genreSelect
    regionSelect := populateEntries REGIONS s.regionSelect
    languageSelect := populateEntries LANGS s.languageSelect }

/-! ## `displayMovies` -/

/-- What a call leaves in the target, and whether it returned (`true`) or
threw (`false`). -/
structure Rendered where
  children : List Node
  returned : Bool
  deriving DecidableEq

/-- The template literal assigned to `card.innerHTML`; `none` is a TypeError
(`m` is `null`, `m.genres` has no `join`, `m.rating` has no `toFixed`, or a
value cannot be printed). -/
def cardHTML (P : Platform) (m : Json) : Option String :=
  match getProp m "title" with
  | none => none
  | some title =>
    match toStr P title, toStr P (lookupProp m "year") with
    | some title, some year =>
      match lookupProp m "genres" with
      | some (Json.arr gs) =>
        match Json.joinWith P ", " gs, lookupProp m "rating" with
        | some genres, some (Json.num x) =>
          match toStr P (lookupProp m "numVotes") with
          | some numVotes =>
            some ("\n      <h3>" ++ title ++ "</h3>\n      <p><strong>Year:</strong> " ++ year ++
              "</p>\n      <p><strong>Genres:</strong> " ++ genres ++
              "</p>\n      <p><strong>Rating:</strong> ⭐ " ++ P.toFixed1 x ++ " (" ++ numVotes ++
              " votes)</p>\n    ")
          | none => none
        | _, _ => none
      | _ => none
    | _, _ => none

/-- The card `displayMovies` builds for a record. -/
def movieCard (html : String) : Node := Node.element "div" "movie-card" html

/-- The loop `movies.forEach(...)`: it stops at the first record that throws. -/
def appendCards (P : Platform) : List Node → List Json → Rendered
  | children, [] => ⟨children, true⟩
  | children, m :: ms =>
    match cardHTML P m with
    | none => ⟨children, false⟩
    | some html => appendCards P (appendChild children (movieCard html)) ms

/-- The test `movies.length === 0` on a truthy value. -/
def lengthIsZero : Json → Bool
  | .arr xs => decide (xs.length = 0)
  | .str s => decide (s.length = 0)
  | .obj kvs =>
    match lookupKey "length" kvs with
    | some (Json.num x) => x == 0
    | _ => false
  | _ => false

/-- The function `displayMovies(target, movies)`, on the children of
`target`. -/
def displayMovies (P : Platform) (target : List Node) (movies : JsValue) : Rendered :=
  let target := setInnerHTML target ""
  match movies with
  | none => ⟨setInnerHTML target "<p>No results found.</p>", true⟩
  | some v =>
    if !v.truthy || lengthIsZero v then ⟨setInnerHTML target "<p>No results found.</p>", true⟩
    else
      match v with
      | .arr ms => appendCards P target ms
      | _ => ⟨target, false⟩

/-! ## The asynchronous operations -/

/-- A call `fetch(url)`. -/
def getRequest (url : String) : Request := ⟨"GET", url, [], none⟩

/-- The expression `localStorage.getItem(key) || "[]"`. -/
def storedOrEmpty (s : State) (key : String) : String :=
  match s.localStorage key with
  | none => "[]"
  | some text => if text = "" then "[]" else text

/-- The `fetch` call of `fetchPersonalRecommendations`, for the three parsed
histories. -/
def personalRequest (g r l : Json) : Request :=
  ⟨"POST", API_URL ++ "/recommend/personal", [("Content-Type", "application/json")],
    some (Json.obj [("genreHistory", g), ("regionHistory", r), ("languageHistory", l)])⟩

/-- The function `fetchPersonalRecommendations`, up to `await fetch(...)`: a
SyntaxError of `JSON.parse` rejects the promise before `fetch` is reached. -/
def fetchPersonalRecommendations (s : State) : State :=
  match JSON_parse (storedOrEmpty s "userGenreHistory"),
    JSON_parse (storedOrEmpty s "userRegionHistory"),
    JSON_parse (storedOrEmpty s "userLanguageHistory") with
  | some g, some r, some l =>
    { s with
      requests := s.requests ++ [personalRequest g r l]
      awaiting := s.awaiting ++ [Op.personal] }
  | _, _, _ => s

/-- The function `fetchPersonalRecommendations`, from the reply on. -/
def fetchPersonalRecommendations_resume (P : Platform) (s : State) (reply : Reply) : State :=
  let s := { s with awaiting := s.awaiting.erase Op.personal }
  match reply with
  | .data d =>
    match getProp d "title" with
    | none => s
    | some title =>
      match toStr P title with
      | none => s
      | some title =>
        { s with
          personalTitle := "🌟 " ++ title
          personalList := (displayMovies P s.personalList (lookupProp d "movies")).children }
  | _ => s

/-- The function `checkServerStatus`, up to `await fetch(...)`. -/
def checkServerStatus (s : State) : State :=
  { s with
    requests := s.requests ++ [getRequest (API_URL ++ "/status")]
    awaiting := s.awaiting ++ [Op.status] }

/-- The `catch` block of `checkServerStatus`. -/
def checkServerStatus_catch (s : State) : State :=
  { s with
    loadingText := "Retrying…"
    timers := s.timers ++ [⟨Callback.checkServerStatus, 1000⟩] }

/-- The function `checkServerStatus`, from the reply on. -/
def checkServerStatus_resume (s : State) (reply : Reply) : State :=
  let s := { s with awaiting := s.awaiting.erase Op.status }
  match reply with
  | .data d =>
    match getProp d "loaded" with
    | none => checkServerStatus_catch s
    | some loaded =>
      if truthy loaded then
        fetchPersonalRecommendations { s with moviesLoaded := true, loadingScreenDisplay := "none" }
      else
        { s with
          loadingText := "Loading movie data…"
          timers := s.timers ++ [⟨Callback.checkServerStatus, 800⟩] }
  | _ => checkServerStatus_catch s

/-- The function `fetchSearch(query)`, up to `await fetch(...)`. -/
def fetchSearch (s : State) (query : String) : State :=
  if !s.moviesLoaded then { s with alerts := s.alerts ++ ["Data still loading."] }
  else
    { s with
      movieList := setInnerHTML s.movieList
        ("<p class=\"status-message\">Searching \"" ++ query ++ "\"...</p>")
      resultsTitle := "Results"
      requests := s.requests ++ [getRequest (API_URL ++ "/search?q=" ++ encodeURIComponent query)]
      awaiting := s.awaiting ++ [Op.search] }

/-- The function `fetchSearch`, from the reply on. -/
def fetchSearch_resume (P : Platform) (s : State) (reply : Reply) : State :=
  let s := { s with awaiting := s.awaiting.erase Op.search }
  match reply with
  | .data d => { s with movieList := (displayMovies P s.movieList (some d)).children }
  | _ => s

/-- The `URLSearchParams` that `fetchFilteredRecommendations` builds from the
three selected values. -/
def filterParams (genre region language : String) : URLSearchParams :=
  let params : URLSearchParams := []
  let params := if genre ≠ "" then params.append "genre" genre else params
  let params := if region ≠ "" then params.append "region" region else params
  let params := if language ≠ "" then params.append "language" language else params
  params

/-- The function `fetchFilteredRecommendations`, up to `await fetch(...)`. -/
def fetchFilteredRecommendations (s : State) : State :=
  if !s.moviesLoaded then { s with alerts := s.alerts ++ ["Loading… wait."] }
  else
    let params := filterParams s.genreSelect.value s.regionSelect.value s.languageSelect.value
    { s with
      movieList := setInnerHTML s.movieList "<p>Loading filtered results…</p>"
      requests := s.requests ++ [getRequest (API_URL ++ "/recommend/genre?" ++ params.toString)]
      awaiting := s.awaiting ++ [Op.filtered] }

/-- The function `fetchFilteredRecommendations`, from the reply on. -/
def fetchFilteredRecommendations_resume (P : Platform) (s : State) (reply : Reply) : State :=
  let s := { s with awaiting := s.awaiting.erase Op.filtered }
  match reply with
  | .data d =>
    { s with
      resultsTitle := "Filtered Results"
      movieList := (displayMovies P s.movieList (some d)).children }
  | _ => s

/-! ## The event loop -/

/-- The handler `searchBtn.onclick`. -/
def searchBtn_onclick (s : State) : State := fetchSearch s (trim s.searchInput)

/-- The handler `recommendBtn.onclick`. -/
def recommendBtn_onclick (s : State) : State := fetchFilteredRecommendations s

/-- The last two statements of the script. -/
def startup (s : State) : State := checkServerStatus (populateSelects s)

/-- What can happen to the page once the script has run. -/
inductive Event where
  /-- The reply to a status call arrives. -/
  | statusReply (reply : Reply)
  /-- The reply to a search arrives. -/
  | searchReply (reply : Reply)
  /-- The reply to a filtered recommendation arrives. -/
  | filteredReply (reply : Reply)
  /-- The reply to a personalized recommendation arrives. -/
  | personalReply (reply : Reply)
  /-- The oldest pending timer fires. -/
  | timerFires
  /-- The user clicks the search button. -/
  | clickSearch
  /-- The user clicks the recommend button. -/
  | clickRecommend
  /-- The user edits the search box. -/
  | typeSearch (text : String)
  /-- The user selects a genre. -/
  | selectGenre (value : String)
  /-- The user selects a region. -/
  | selectRegion (value : String)
  /-- The user selects a language. -/
  | selectLanguage (value : String)
  /-- Another page of the site writes or removes a local-storage key. -/
  | storage (key : String) (value : Option String)

/-- Runs a timer callback. -/
def Callback.run : Callback → State → State
  | .checkServerStatus, s => RecommenEngine.checkServerStatus s

/-- One turn of the event loop; `none` when the event cannot happen in `s`
(no such reply is awaited, no timer is pending). -/
def step (P : Platform) (s : State) : Event → Option State
  | .statusReply reply =>
    if Op.status ∈ s.awaiting then some (checkServerStatus_resume s reply) else none
  | .searchReply reply =>
    if Op.search ∈ s.awaiting then some (fetchSearch_resume P s reply) else none
  | .filteredReply reply =>
    if Op.filtered ∈ s.awaiting then some (fetchFilteredRecommendations_resume P s reply)
    else none
  | .personalReply reply =>
    if Op.personal ∈ s.awaiting then some (fetchPersonalRecommendations_resume P s reply)
    else none
  | .timerFires =>
    match s.timers with
    | [] => none
    | t :: rest => some (t.callback.run { s with timers := rest })
  | .clickSearch => some (searchBtn_onclick s)
  | .clickRecommend => some (recommendBtn_onclick s)
  | .typeSearch text => some { s with searchInput := text }
  | .selectGenre value => some { s with genreSelect := { s.genreSelect with value := value } }
  | .selectRegion value => some { s with regionSelect := { s.regionSelect with value := value } }
  | .selectLanguage value =>
    some { s with languageSelect := { s.languageSelect with value := value } }
  | .storage key value =>
    some { s with localStorage := fun k => if k = key then value else s.localStorage k }

/-- Runs a sequence of events. -/
def run (P : Platform) (s : State) : List Event → Option State
  | [] => some s
  | e :: es =>
    match step P s e with
    | none => none
    | some s' => run P s' es

/-- The page as the script finds it: nothing logged yet, `moviesLoaded` at its
initial value, the loading screen shown. -/
def Initial (s : State) : Prop :=
  s.moviesLoaded = false ∧ s.alerts = [] ∧ s.requests = [] ∧ s.timers = [] ∧ s.awaiting = []

/-- The states the page can be in after the script has run. -/
inductive Reachable (P : Platform) : State → Prop where
  | start (s : State) : Initial s → Reachable P (startup s)
  | next (s s' : State) (e : Event) : Reachable P s → step P s e = some s' → Reachable P s'

/-- The status calls that await their reply. -/
def statusInFlight (s : State) : Nat := s.awaiting.count Op.status

/-- The pending timers that will call `checkServerStatus`. -/
def statusScheduled (s : State) : Nat :=
  (s.timers.filter fun t => t.callback = Callback.checkServerStatus).length

/-- The status calls made so far. -/
def statusCalls (s : State) : Nat :=
  (s.requests.filter fun r => r.url = API_URL ++ "/status").length

/-- The personalized-recommendation requests made so far. -/
def personalCalls (s : State) : Nat :=
  (s.requests.filter fun r => r.url = API_URL ++ "/recommend/personal").length

/-- The reply reports that the data is loaded: `data.loaded` is truthy. -/
def Reply.reportsLoaded : Reply → Bool
  | .data d =>
    match getProp d "loaded" with
    | some loaded => truthy loaded
    | none => false
  | _ => false

/-- The events that feed the poll the status replies `rs`, one after the
other: between two replies the retry timer fires. -/
def pollEvents : List Reply → List Event
  | [] => []
  | [r] => [Event.statusReply r]
  | r :: r' :: rs => Event.statusReply r :: Event.timerFires :: pollEvents (r' :: rs)

/-- Whether an event is a status reply that reports the data loaded. -/
def Event.reportsLoaded : Event → Bool
  | .statusReply reply => reply.reportsLoaded
  | _ => false

/-! ## Sample inputs -/

/-- A page with empty dropdowns, lists and storage, before the script runs. -/
def blankPage : State :=
  { moviesLoaded := false
    loadingScreenDisplay := ""
    loadingText := ""
    searchInput := ""
    genreSelect := ⟨[], ""⟩
    regionSelect := ⟨[], ""⟩
    languageSelect := ⟨[], ""⟩
    movieList := []
    personalList := []
    resultsTitle := ""
    personalTitle := ""
    localStorage := fun _ => none
    alerts := []
    requests := []
    timers := []
    awaiting := [] }

/-- How a JSON string or number prints in a template literal. -/
def Json.text (P : Platform) : Json → String
  | .str s => s
  | .num x => P.numberToString x
  | _ => ""

/-- A platform for the examples: numbers print as Lean prints them. -/
def samplePlatform : Platform := ⟨fun x => toString x, fun x => toString x⟩

/-- A page that is ready, with a text in the search box and two filters
chosen. -/
def readyPage : State :=
  { blankPage with
    moviesLoaded := true
    loadingScreenDisplay := "none"
    searchInput := "  sci fi & más "
    genreSelect := ⟨[], "sci-fi"⟩
    languageSelect := ⟨[], "en"⟩ }

/-- A status reply whose body is an object with `loaded: true`. -/
def loadedReply : Reply := Reply.data (Json.obj [("loaded", Json.bool true)])

/-- A status reply whose body is an object with `loaded: false`. -/
def loadingReply : Reply := Reply.data (Json.obj [("loaded", Json.bool false)])

/-- A blank page whose local storage holds, under `userGenreHistory`, the
text of a single opening brace, which is not JSON. -/
def brokenStoragePage : State :=
  { blankPage with
    localStorage := fun k => if k = "userGenreHistory" then some "\x7b" else none }

theorem hexVal_hexDigit (d : Nat) (h : d < 16) : hexVal (hexDigit d) = some d := by
  interval_cases d <;> rfl

theorem hexDigit_ne (d : Nat) (h : d < 16) : hexDigit d ≠ '&' ∧ hexDigit d ≠ '=' := by
  interval_cases d <;> decide

theorem char_toNat_lt (c : Char) : c.toNat < 0x110000 := by
  have h := c.valid
  simp only [UInt32.isValidChar, Nat.isValidChar] at h
  simp only [Char.toNat]
  omega

theorem utf8Bytes_lt (c : Char) : ∀ b ∈ utf8Bytes c, b < 256 := by
  have h := char_toNat_lt c
  intro b hb
  simp only [utf8Bytes] at hb
  split_ifs at hb <;> simp at hb <;> omega

theorem formDecodeChars_percentByte (b : Nat) (hb : b < 256) (tail : List Char) :
    formDecodeChars (percentByte b ++ tail) = b :: formDecodeChars tail := by
  have h1 := hexVal_hexDigit (b / 16) (by omega)
  have h2 := hexVal_hexDigit (b % 16) (by omega)
  simp only [percentByte, List.cons_append, List.nil_append, formDecodeChars, h1, h2, if_true]
  congr 1
  omega

theorem formDecodeChars_percentBytes (bs : List Nat) (hbs : ∀ b ∈ bs, b < 256)
    (tail : List Char) :
    formDecodeChars (bs.flatMap percentByte ++ tail) = bs ++ formDecodeChars tail := by
  induction bs with
  | nil => simp
  | cons b bs ih =>
    rw [List.flatMap_cons, List.append_assoc,
      formDecodeChars_percentByte b (hbs b (List.mem_cons_self b bs)),
      ih (fun x hx => hbs x (List.mem_cons_of_mem b hx))]
    rfl

theorem formDecodeChars_plain (c : Char) (hc : c ≠ '%') (tail : List Char) :
    formDecodeChars (c :: tail) = plainBytes c ++ formDecodeChars tail := by
  match tail with
  | [] => simp [formDecodeChars]
  | [d] => simp [formDecodeChars]
  | d :: e :: rest => simp [formDecodeChars, hc]

theorem isFormSafe_ne (c : Char) (h : isFormSafe c = true) :
    c ≠ '%' ∧ c ≠ '+' ∧ c ≠ '&' ∧ c ≠ '=' := by
  refine ⟨?_, ?_, ?_, ?_⟩ <;> (rintro rfl; revert h; decide)

theorem formDecodeChars_formEncodeChar (c : Char) (tail : List Char) :
    formDecodeChars (formEncodeChar c ++ tail) = utf8Bytes c ++ formDecodeChars tail := by
  unfold formEncodeChar
  split_ifs with hsp hsafe
  · subst hsp
    rw [List.singleton_append, formDecodeChars_plain _ (by decide)]
    rfl
  · obtain ⟨h1, h2, -, -⟩ := isFormSafe_ne c hsafe
    rw [List.singleton_append, formDecodeChars_plain _ h1]
    simp [plainBytes, h2]
  · exact formDecodeChars_percentBytes _ (utf8Bytes_lt c) tail

theorem formDecodeChars_formEncodeChars (cs : List Char) (tail : List Char) :
    formDecodeChars (formEncodeChars cs ++ tail) = cs.flatMap utf8Bytes ++ formDecodeChars tail := by
  induction cs with
  | nil => simp [formEncodeChars]
  | cons c cs ih =>
    simp only [formEncodeChars, List.flatMap_cons, List.append_assoc] at ih ⊢
    rw [formDecodeChars_formEncodeChar, ih]

theorem formDecode_formEncode (s : String) : formDecodeChars (formEncodeChars s.data) = utf8 s := by
  have h := formDecodeChars_formEncodeChars s.data []
  simpa [utf8, formDecodeChars] using h

theorem formEncodeChar_ne (c x : Char) (hx : x ∈ formEncodeChar c) : x ≠ '&' ∧ x ≠ '=' := by
  unfold formEncodeChar at hx
  split_ifs at hx with hsp hsafe
  · rw [List.mem_singleton.mp hx]; decide
  · rw [List.mem_singleton.mp hx]
    exact ⟨(isFormSafe_ne c hsafe).2.2.1, (isFormSafe_ne c hsafe).2.2.2⟩
  · obtain ⟨b, hb, hxb⟩ := List.mem_flatMap.mp hx
    have hlt := utf8Bytes_lt c b hb
    simp only [percentByte, List.mem_cons, List.mem_singleton, List.not_mem_nil, or_false] at hxb
    rcases hxb with rfl | rfl | rfl
    · decide
    · exact hexDigit_ne _ (by omega)
    · exact hexDigit_ne _ (by omega)

theorem formEncodeChars_ne (cs : List Char) (x : Char) (hx : x ∈ formEncodeChars cs) :
    x ≠ '&' ∧ x ≠ '=' := by
  obtain ⟨c, -, hxc⟩ := List.mem_flatMap.mp hx
  exact formEncodeChar_ne c x hxc

theorem takeWhile_append_stop {α : Type} (p : α → Bool) (xs : List α) (y : α) (ys : List α)
    (hxs : ∀ x ∈ xs, p x = true) (hy : p y = false) :
    (xs ++ y :: ys).takeWhile p = xs ∧ (xs ++ y :: ys).dropWhile p = y :: ys := by
  induction xs with
  | nil => simp [List.takeWhile, List.dropWhile, hy]
  | cons x xs ih =>
    have hx := hxs x (List.mem_cons_self x xs)
    have := ih (fun z hz => hxs z (List.mem_cons_of_mem x hz))
    simp [List.takeWhile, List.dropWhile, hx, this]

theorem parsePiece_pairChars (p : String × String) :
    parsePiece (pairChars p) = (utf8 p.1, utf8 p.2) := by
  have h := takeWhile_append_stop (fun c => c != '=') (formEncodeChars p.1.data) '='
    (formEncodeChars p.2.data)
    (fun x hx => by simpa using (formEncodeChars_ne _ x hx).2) (by simp)
  simp only [parsePiece, pairChars, h.1, h.2, List.tail_cons, formDecode_formEncode]

theorem pairChars_no_amp (p : String × String) : '&' ∉ pairChars p := by
  intro h
  simp only [pairChars, List.mem_append, List.mem_cons] at h
  rcases h with h | h | h
  · exact (formEncodeChars_ne _ _ h).1 rfl
  · exact absurd h (by decide)
  · exact (formEncodeChars_ne _ _ h).1 rfl

theorem pairChars_ne_nil (p : String × String) : pairChars p ≠ [] := by
  simp [pairChars]

theorem parseQueryChars_serializeChars (ps : List (String × String)) :
    parseQueryChars (serializeChars ps) = ps.map fun p => (utf8 p.1, utf8 p.2) := by
  cases ps with
  | nil => rfl
  | cons p ps =>
    have hsplit : (serializeChars (p :: ps)).splitOn '&' = (p :: ps).map pairChars := by
      unfold serializeChars
      apply List.splitOn_intercalate
      · intro l hl
        obtain ⟨q, -, rfl⟩ := List.mem_map.mp hl
        exact pairChars_no_amp q
      · simp
    have hfilter : ((p :: ps).map pairChars).filter (fun piece => piece != [])
        = (p :: ps).map pairChars := by
      apply List.filter_eq_self.mpr
      intro l hl
      obtain ⟨q, -, rfl⟩ := List.mem_map.mp hl
      simpa using pairChars_ne_nil q
    rw [parseQueryChars, hsplit, hfilter, List.map_map]
    apply List.map_congr_left
    intro q _
    exact parsePiece_pairChars q

theorem parseQuery_toString (ps : URLSearchParams) :
    parseQuery ps.toString = ps.map fun p => (utf8 p.1, utf8 p.2) :=
  parseQueryChars_serializeChars ps

theorem filterParams_eq (g r l : String) :
    filterParams g r l
      = [("genre", g), ("region", r), ("language", l)].filter fun p => p.2 ≠ "" := by
  by_cases hg : g = "" <;> by_cases hr : r = "" <;> by_cases hl : l = "" <;>
    simp [filterParams, URLSearchParams.append, hg, hr, hl]

/-- C1. With `moviesLoaded` true, `fetchFilteredRecommendations` issues one GET
of `API_URL + "/recommend/genre?" + query` where `query` is the serialization
of the parameters built from the selected values `g`, `r`, `l`: the query,
read back by the form-urlencoded parser, holds `genre` exactly when `g` is not
empty, `region` exactly when `r` is not empty and `language` exactly when `l`
is not empty, each with the selected value, each at most once, in the order
genre, region, language; with all three empty the query is empty. -/
theorem fetchFilteredRecommendations_query (s : State) (g r l : String)
    (h : s.moviesLoaded = true) (hg : s.genreSelect.value = g) (hr : s.regionSelect.value = r)
    (hl : s.languageSelect.value = l) :
    (fetchFilteredRecommendations s).requests
        = s.requests
          ++ [⟨"GET", API_URL ++ "/recommend/genre?" ++ (filterParams g r l).toString, [], none⟩]
      ∧ parseQuery (filterParams g r l).toString
        = (filterParams g r l).map (fun p => (utf8 p.1, utf8 p.2))
      ∧ filterParams g r l
        = [("genre", g), ("region", r), ("language", l)].filter (fun p => p.2 ≠ "")
      ∧ (∀ v, ("genre", v) ∈ filterParams g r l ↔ g ≠ "" ∧ v = g)
      ∧ (∀ v, ("region", v) ∈ filterParams g r l ↔ r ≠ "" ∧ v = r)
      ∧ (∀ v, ("language", v) ∈ filterParams g r l ↔ l ≠ "" ∧ v = l)
      ∧ ((filterParams g r l).map Prod.fst).Nodup
      ∧ ((filterParams g r l).map Prod.fst).Sublist ["genre", "region", "language"]
      ∧ (g = "" → r = "" → l = "" → (filterParams g r l).toString = "") := by
  subst hg hr hl
  refine ⟨by simp [fetchFilteredRecommendations, h, getRequest], parseQuery_toString _,
    filterParams_eq _ _ _, ?_, ?_, ?_, ?_, ?_, ?_⟩
  · intro v
    by_cases hg : s.genreSelect.value = "" <;> by_cases hr : s.regionSelect.value = "" <;>
      by_cases hl : s.languageSelect.value = "" <;>
      simp [filterParams, URLSearchParams.append, hg, hr, hl]
  · intro v
    by_cases hg : s.genreSelect.value = "" <;> by_cases hr : s.regionSelect.value = "" <;>
      by_cases hl : s.languageSelect.value = "" <;>
      simp [filterParams, URLSearchParams.append, hg, hr, hl]
  · intro v
    by_cases hg : s.genreSelect.value = "" <;> by_cases hr : s.regionSelect.value = "" <;>
      by_cases hl : s.languageSelect.value = "" <;>
      simp [filterParams, URLSearchParams.append, hg, hr, hl]
  · by_cases hg : s.genreSelect.value = "" <;> by_cases hr : s.regionSelect.value = "" <;>
      by_cases hl : s.languageSelect.value = "" <;>
      simp [filterParams, URLSearchParams.append, hg, hr, hl]
  · by_cases hg : s.genreSelect.value = "" <;> by_cases hr : s.regionSelect.value = "" <;>
      by_cases hl : s.languageSelect.value = "" <;>
      simp [filterParams, URLSearchParams.append, hg, hr, hl]
  · intro hg hr hl
    rw [hg, hr, hl]
    rfl

/-- C1 with genre `sci-fi`, no region and language `en`. -/
theorem fetchFilteredRecommendations_query_witness :
    readyPage.moviesLoaded = true
      ∧ readyPage.genreSelect.value = "sci-fi" ∧ readyPage.regionSelect.value = ""
      ∧ readyPage.languageSelect.value = "en"
      ∧ (fetchFilteredRecommendations readyPage).requests
        = [⟨"GET", "http://localhost:5000/api/recommend/genre?genre=sci-fi&language=en", [],
            none⟩] :=
  ⟨rfl, rfl, rfl, rfl,
    (fetchFilteredRecommendations_query readyPage "sci-fi" "" "en" rfl rfl rfl rfl).1.trans rfl⟩

/-! ### The readiness guard -/

theorem fetchPersonalRecommendations_cases (s : State) :
    (∃ g r l, JSON_parse (storedOrEmpty s "userGenreHistory") = some g
        ∧ JSON_parse (storedOrEmpty s "userRegionHistory") = some r
        ∧ JSON_parse (storedOrEmpty s "userLanguageHistory") = some l
        ∧ fetchPersonalRecommendations s
          = { s with
              requests := s.requests ++ [personalRequest g r l]
              awaiting := s.awaiting ++ [Op.personal] })
      ∨ ((JSON_parse (storedOrEmpty s "userGenreHistory") = none
          ∨ JSON_parse (storedOrEmpty s "userRegionHistory") = none
          ∨ JSON_parse (storedOrEmpty s "userLanguageHistory") = none)
        ∧ fetchPersonalRecommendations s = s) := by
  unfold fetchPersonalRecommendations
  cases hg : JSON_parse (storedOrEmpty s "userGenreHistory") <;>
    cases hr : JSON_parse (storedOrEmpty s "userRegionHistory") <;>
    cases hl : JSON_parse (storedOrEmpty s "userLanguageHistory") <;> simp

theorem fetchPersonalRecommendations_moviesLoaded (s : State) :
    (fetchPersonalRecommendations s).moviesLoaded = s.moviesLoaded := by
  rcases fetchPersonalRecommendations_cases s with ⟨g, r, l, -, -, -, h⟩ | ⟨-, h⟩ <;> rw [h]

theorem fetchPersonalRecommendations_timers (s : State) :
    (fetchPersonalRecommendations s).timers = s.timers := by
  rcases fetchPersonalRecommendations_cases s with ⟨g, r, l, -, -, -, h⟩ | ⟨-, h⟩ <;> rw [h]

theorem checkServerStatus_resume_moviesLoaded (s : State) (reply : Reply) :
    (checkServerStatus_resume s reply).moviesLoaded = (s.moviesLoaded || reply.reportsLoaded) := by
  cases reply with
  | rejected => simp [checkServerStatus_resume, checkServerStatus_catch, Reply.reportsLoaded]
  | unparsable => simp [checkServerStatus_resume, checkServerStatus_catch, Reply.reportsLoaded]
  | data d =>
    simp only [checkServerStatus_resume, Reply.reportsLoaded]
    cases hp : getProp d "loaded" with
    | none => simp [checkServerStatus_catch]
    | some loaded =>
      by_cases ht : truthy loaded = true
      · simp [ht, fetchPersonalRecommendations_moviesLoaded]
      · simp [ht]

theorem fetchPersonalRecommendations_resume_moviesLoaded (P : Platform) (s : State)
    (reply : Reply) :
    (fetchPersonalRecommendations_resume P s reply).moviesLoaded = s.moviesLoaded := by
  unfold fetchPersonalRecommendations_resume
  split
  · split
    · rfl
    · split <;> rfl
  · rfl

theorem step_moviesLoaded (P : Platform) (s s' : State) (e : Event)
    (h : step P s e = some s') : s'.moviesLoaded = (s.moviesLoaded || e.reportsLoaded) := by
  cases e with
  | statusReply reply =>
    simp only [step] at h
    split_ifs at h
    cases h
    exact checkServerStatus_resume_moviesLoaded s reply
  | searchReply reply =>
    simp only [step] at h
    split_ifs at h
    cases h
    cases reply <;> simp [fetchSearch_resume, Event.reportsLoaded]
  | filteredReply reply =>
    simp only [step] at h
    split_ifs at h
    cases h
    cases reply <;> simp [fetchFilteredRecommendations_resume, Event.reportsLoaded]
  | personalReply reply =>
    simp only [step] at h
    split_ifs at h
    cases h
    simp [fetchPersonalRecommendations_resume_moviesLoaded, Event.reportsLoaded]
  | timerFires =>
    simp only [step] at h
    cases ht : s.timers with
    | nil => simp [ht] at h
    | cons t rest =>
      simp only [ht] at h
      cases h
      cases t with
      | mk callback delay =>
        cases callback
        simp [Callback.run, checkServerStatus, Event.reportsLoaded]
  | clickSearch =>
    simp only [step] at h
    cases h
    by_cases hm : s.moviesLoaded = true <;>
      simp [searchBtn_onclick, fetchSearch, hm, Event.reportsLoaded]
  | clickRecommend =>
    simp only [step] at h
    cases h
    by_cases hm : s.moviesLoaded = true <;>
      simp [recommendBtn_onclick, fetchFilteredRecommendations, hm, Event.reportsLoaded]
  | typeSearch text => simp only [step] at h; cases h; simp [Event.reportsLoaded]
  | selectGenre value => simp only [step] at h; cases h; simp [Event.reportsLoaded]
  | selectRegion value => simp only [step] at h; cases h; simp [Event.reportsLoaded]
  | selectLanguage value => simp only [step] at h; cases h; simp [Event.reportsLoaded]
  | storage key value => simp only [step] at h; cases h; simp [Event.reportsLoaded]

/-- C10. While `moviesLoaded` is false, `fetchSearch` and
`fetchFilteredRecommendations` only show an alert: no request is issued and
the movie list, the results title, the personal list and `moviesLoaded` stay
as they are. No step of the page and no run of the start-up code sets
`moviesLoaded` back to false, and the only step that sets it is a status
reply whose `loaded` is truthy. -/
theorem readiness_guard (P : Platform) (s : State) (query : String)
    (h : s.moviesLoaded = false) :
    fetchSearch s query = { s with alerts := s.alerts ++ ["Data still loading."] }
      ∧ fetchFilteredRecommendations s = { s with alerts := s.alerts ++ ["Loading… wait."] }
      ∧ step P s Event.clickSearch = some { s with alerts := s.alerts ++ ["Data still loading."] }
      ∧ step P s Event.clickRecommend = some { s with alerts := s.alerts ++ ["Loading… wait."] }
      ∧ ((fetchSearch s query).requests = s.requests
          ∧ (fetchSearch s query).awaiting = s.awaiting
          ∧ (fetchSearch s query).movieList = s.movieList
          ∧ (fetchSearch s query).resultsTitle = s.resultsTitle
          ∧ (fetchSearch s query).personalList = s.personalList
          ∧ (fetchSearch s query).moviesLoaded = false)
      ∧ ((fetchFilteredRecommendations s).requests = s.requests
          ∧ (fetchFilteredRecommendations s).awaiting = s.awaiting
          ∧ (fetchFilteredRecommendations s).movieList = s.movieList
          ∧ (fetchFilteredRecommendations s).resultsTitle = s.resultsTitle
          ∧ (fetchFilteredRecommendations s).personalList = s.personalList
          ∧ (fetchFilteredRecommendations s).moviesLoaded = false)
      ∧ (∀ (s₁ s₂ : State) (e : Event), step P s₁ e = some s₂ →
          (s₁.moviesLoaded = true → s₂.moviesLoaded = true)
            ∧ (s₁.moviesLoaded = false → s₂.moviesLoaded = true →
                ∃ reply, e = Event.statusReply reply ∧ reply.reportsLoaded = true))
      ∧ (∀ s₀ : State, (startup s₀).moviesLoaded = s₀.moviesLoaded) := by
  have hs : fetchSearch s query = { s with alerts := s.alerts ++ ["Data still loading."] } := by
    simp [fetchSearch, h]
  have hf : fetchFilteredRecommendations s
      = { s with alerts := s.alerts ++ ["Loading… wait."] } := by
    simp [fetchFilteredRecommendations, h]
  refine ⟨hs, hf, by simp [step, searchBtn_onclick, fetchSearch, h],
    by simp [step, recommendBtn_onclick, hf], by simp [hs, h], by simp [hf, h], ?_, ?_⟩
  · intro s₁ s₂ e hstep
    have hm := step_moviesLoaded P s₁ s₂ e hstep
    refine ⟨fun h₁ => by simp [hm, h₁], fun h₁ h₂ => ?_⟩
    rw [hm, h₁, Bool.false_or] at h₂
    cases e <;> simp [Event.reportsLoaded] at h₂
    exact ⟨_, rfl, h₂⟩
  · intro s₀
    simp [startup, checkServerStatus, populateSelects]

/-- C10 on the blank page, where `moviesLoaded` is still false. -/
theorem readiness_guard_witness :
    blankPage.moviesLoaded = false
      ∧ (fetchSearch blankPage "heat").alerts = ["Data still loading."]
      ∧ (fetchSearch blankPage "heat").requests = []
      ∧ (fetchFilteredRecommendations blankPage).alerts = ["Loading… wait."]
      ∧ (fetchFilteredRecommendations blankPage).requests = [] :=
  have h := readiness_guard samplePlatform blankPage "heat" rfl
  ⟨rfl, by rw [h.1]; rfl, by rw [h.1]; rfl, by rw [h.2.1]; rfl, by rw [h.2.1]; rfl⟩

/-! ### The readiness poll -/

theorem statusScheduled_eq (s : State) : statusScheduled s = s.timers.length := by
  unfold statusScheduled
  rw [List.filter_eq_self.mpr]
  intro t _
  cases t with
  | mk callback delay => cases callback; simp

theorem checkServerStatus_resume_ready (s : State) (d : Json)
    (h : (Reply.data d).reportsLoaded = true) :
    checkServerStatus_resume s (Reply.data d)
      = fetchPersonalRecommendations
          { s with
            awaiting := s.awaiting.erase Op.status
            moviesLoaded := true
            loadingScreenDisplay := "none" } := by
  simp only [Reply.reportsLoaded] at h
  simp only [checkServerStatus_resume]
  cases hp : getProp d "loaded" with
  | none => simp [hp] at h
  | some loaded =>
    simp only [hp] at h
    simp [h]

theorem checkServerStatus_resume_notLoaded (s : State) (reply : Reply)
    (h : reply.reportsLoaded = false) :
    ∃ delay text,
      checkServerStatus_resume s reply
        = { s with
            awaiting := s.awaiting.erase Op.status
            loadingText := text
            timers := s.timers ++ [⟨Callback.checkServerStatus, delay⟩] }
      ∧ ((delay = 800 ∧ text = "Loading movie data…"
            ∧ ∃ d loaded, reply = Reply.data d ∧ getProp d "loaded" = some loaded
                ∧ truthy loaded = false)
          ∨ (delay = 1000 ∧ text = "Retrying…"
            ∧ (reply = Reply.rejected ∨ reply = Reply.unparsable
                ∨ reply = Reply.data Json.null))) := by
  cases reply with
  | rejected =>
    exact ⟨1000, "Retrying…", rfl, Or.inr ⟨rfl, rfl, Or.inl rfl⟩⟩
  | unparsable =>
    exact ⟨1000, "Retrying…", rfl, Or.inr ⟨rfl, rfl, Or.inr (Or.inl rfl)⟩⟩
  | data d =>
    simp only [Reply.reportsLoaded] at h
    cases hp : getProp d "loaded" with
    | none =>
      have hd : d = Json.null := by
        cases d <;> simp [getProp] at hp
        rfl
      subst hd
      exact ⟨1000, "Retrying…", rfl, Or.inr ⟨rfl, rfl, Or.inr (Or.inr rfl)⟩⟩
    | some loaded =>
      simp only [hp] at h
      refine ⟨800, "Loading movie data…", ?_, Or.inl ⟨rfl, rfl, d, loaded, rfl, hp, h⟩⟩
      simp [checkServerStatus_resume, hp, h]

/-- C4, as stated, fails: a status call that succeeds with the JSON body
`null`, which does not report loaded, is retried after 1000 ms, not 800 ms;
so is one whose body is not JSON. -/
theorem null_status_retried_after_1000 :
    (Reply.data Json.null).reportsLoaded = false
      ∧ (checkServerStatus_resume (startup blankPage) (Reply.data Json.null)).timers
        = [⟨Callback.checkServerStatus, 1000⟩]
      ∧ (checkServerStatus_resume (startup blankPage) (Reply.data Json.null)).timers
        ≠ [⟨Callback.checkServerStatus, 800⟩]
      ∧ (checkServerStatus_resume (startup blankPage) Reply.unparsable).timers
        = [⟨Callback.checkServerStatus, 1000⟩] := by
  refine ⟨rfl, rfl, ?_, rfl⟩
  decide

/-- C4, amended. When the reply to a status call does not report loaded, the
step schedules exactly one retry of `checkServerStatus`: after 800 ms when
the body is a JSON value other than `null` (its `loaded` is then absent or
falsy), after 1000 ms when the call fails, that is when `fetch` rejects, the
body is not JSON, or the body is `null`. `moviesLoaded`, the loading screen
and the requests made stay as they are, and the delay depends on the reply
alone, not on the state or on earlier attempts. -/
theorem checkServerStatus_retry (s : State) (reply : Reply)
    (h : reply.reportsLoaded = false) :
    ∃ delay,
      (checkServerStatus_resume s reply).timers
          = s.timers ++ [⟨Callback.checkServerStatus, delay⟩]
        ∧ (delay = 800 ∨ delay = 1000)
        ∧ (delay = 800 ↔ ∃ d loaded, reply = Reply.data d ∧ getProp d "loaded" = some loaded)
        ∧ (delay = 1000 ↔
            reply = Reply.rejected ∨ reply = Reply.unparsable ∨ reply = Reply.data Json.null)
        ∧ (∀ s' : State, (checkServerStatus_resume s' reply).timers
            = s'.timers ++ [⟨Callback.checkServerStatus, delay⟩])
        ∧ (checkServerStatus_resume s reply).moviesLoaded = s.moviesLoaded
        ∧ (checkServerStatus_resume s reply).loadingScreenDisplay = s.loadingScreenDisplay
        ∧ (checkServerStatus_resume s reply).requests = s.requests
        ∧ (checkServerStatus_resume s reply).awaiting = s.awaiting.erase Op.status := by
  obtain ⟨delay, text, heq, hcase⟩ := checkServerStatus_resume_notLoaded s reply h
  have hother : ∀ s' : State, (checkServerStatus_resume s' reply).timers
      = s'.timers ++ [⟨Callback.checkServerStatus, delay⟩] := by
    intro s'
    obtain ⟨delay', text', heq', hcase'⟩ := checkServerStatus_resume_notLoaded s' reply h
    rw [heq']
    rcases hcase with ⟨rfl, -, d, loaded, rfl, hp, -⟩ | ⟨rfl, -, hr⟩
    · rcases hcase' with ⟨rfl, -⟩ | ⟨-, -, hr'⟩
      · rfl
      · rcases hr' with hr' | hr' | hr'
        · cases hr'
        · cases hr'
        · cases hr'; simp [getProp] at hp
    · rcases hcase' with ⟨-, -, d, loaded, rfl, hp, -⟩ | ⟨rfl, -⟩
      · rcases hr with hr | hr | hr
        · cases hr
        · cases hr
        · cases hr; simp [getProp] at hp
      · rfl
  refine ⟨delay, by rw [heq], ?_, ?_, ?_, hother, by rw [heq], by rw [heq], by rw [heq],
    by rw [heq]⟩
  · rcases hcase with ⟨rfl, -⟩ | ⟨rfl, -⟩
    · exact Or.inl rfl
    · exact Or.inr rfl
  · constructor
    · rintro rfl
      rcases hcase with ⟨-, -, d, loaded, rfl, hp, -⟩ | ⟨hd, -⟩
      · exact ⟨d, loaded, rfl, hp⟩
      · exact absurd hd (by decide)
    · rintro ⟨d, loaded, rfl, hp⟩
      rcases hcase with ⟨rfl, -⟩ | ⟨-, -, hr⟩
      · rfl
      · rcases hr with hr | hr | hr
        · cases hr
        · cases hr
        · cases hr; simp [getProp] at hp
  · constructor
    · rintro rfl
      rcases hcase with ⟨hd, -⟩ | ⟨-, -, hr⟩
      · exact absurd hd (by decide)
      · exact hr
    · intro hr
      rcases hcase with ⟨-, -, d, loaded, rfl, hp, -⟩ | ⟨rfl, -⟩
      · rcases hr with hr | hr | hr
        · cases hr
        · cases hr
        · cases hr; simp [getProp] at hp
      · rfl

/-- C4, amended, at a reply with `loaded: false` right after start-up. -/
theorem checkServerStatus_retry_witness :
    loadingReply.reportsLoaded = false
      ∧ ∃ delay,
        (checkServerStatus_resume (startup blankPage) loadingReply).timers
            = (startup blankPage).timers ++ [⟨Callback.checkServerStatus, delay⟩]
          ∧ (delay = 800 ↔
              ∃ d loaded, loadingReply = Reply.data d ∧ getProp d "loaded" = some loaded) :=
  ⟨rfl,
    (checkServerStatus_retry (startup blankPage) loadingReply rfl).imp
      fun _ hd => ⟨hd.1, hd.2.2.1⟩⟩

theorem fetchPersonalRecommendations_statusInFlight (s : State) :
    statusInFlight (fetchPersonalRecommendations s) = statusInFlight s := by
  rcases fetchPersonalRecommendations_cases s with ⟨g, r, l, -, -, -, h⟩ | ⟨-, h⟩ <;> rw [h]
  simp [statusInFlight, List.count_append]

theorem fetchPersonalRecommendations_resume_poller (P : Platform) (s : State) (reply : Reply) :
    (fetchPersonalRecommendations_resume P s reply).timers = s.timers
      ∧ (fetchPersonalRecommendations_resume P s reply).requests = s.requests
      ∧ (fetchPersonalRecommendations_resume P s reply).awaiting = s.awaiting.erase Op.personal := by
  unfold fetchPersonalRecommendations_resume
  split
  · split
    · exact ⟨rfl, rfl, rfl⟩
    · split <;> exact ⟨rfl, rfl, rfl⟩
  · exact ⟨rfl, rfl, rfl⟩

theorem count_status_erase (ops : List Op) (op : Op) (h : op ≠ Op.status) :
    (ops.erase op).count Op.status = ops.count Op.status := by
  rw [List.count_erase_of_ne (Ne.symm h)]

/-- What one step does to the poll: a status reply takes its call out of
flight and, unless it reports loaded, schedules one retry; a timer puts one
call in flight; nothing else touches the poll. -/
theorem step_poller (P : Platform) (s s' : State) (e : Event) (h : step P s e = some s') :
    match e with
    | Event.statusReply reply =>
      0 < statusInFlight s ∧ statusInFlight s' = statusInFlight s - 1
        ∧ s'.timers.length = s.timers.length + (if reply.reportsLoaded then 0 else 1)
    | Event.timerFires =>
      statusInFlight s' = statusInFlight s + 1 ∧ s'.timers.length + 1 = s.timers.length
    | _ => statusInFlight s' = statusInFlight s ∧ s'.timers = s.timers := by
  cases e with
  | statusReply reply =>
    simp only [step] at h
    split_ifs at h with hmem
    cases h
    refine ⟨List.count_pos_iff.mpr hmem, ?_, ?_⟩
    · by_cases hr : reply.reportsLoaded = true
      · cases reply with
        | rejected => simp [Reply.reportsLoaded] at hr
        | unparsable => simp [Reply.reportsLoaded] at hr
        | data d =>
          rw [checkServerStatus_resume_ready s d hr, fetchPersonalRecommendations_statusInFlight]
          simp [statusInFlight, List.count_erase_self]
      · obtain ⟨delay, text, heq, -⟩ :=
          checkServerStatus_resume_notLoaded s reply (by simpa using hr)
        rw [heq]
        simp [statusInFlight, List.count_erase_self]
    · by_cases hr : reply.reportsLoaded = true
      · cases reply with
        | rejected => simp [Reply.reportsLoaded] at hr
        | unparsable => simp [Reply.reportsLoaded] at hr
        | data d =>
          rw [checkServerStatus_resume_ready s d hr, fetchPersonalRecommendations_timers]
          simp [hr]
      · obtain ⟨delay, text, heq, -⟩ :=
          checkServerStatus_resume_notLoaded s reply (by simpa using hr)
        rw [heq]
        simp [hr]
  | searchReply reply =>
    simp only [step] at h
    split_ifs at h
    cases h
    cases reply <;>
      simp [fetchSearch_resume, statusInFlight, count_status_erase]
  | filteredReply reply =>
    simp only [step] at h
    split_ifs at h
    cases h
    cases reply <;>
      simp [fetchFilteredRecommendations_resume, statusInFlight, count_status_erase]
  | personalReply reply =>
    simp only [step] at h
    split_ifs at h
    cases h
    obtain ⟨ht, -, ha⟩ := fetchPersonalRecommendations_resume_poller P s reply
    simp [statusInFlight, ht, ha, count_status_erase]
  | timerFires =>
    simp only [step] at h
    cases ht : s.timers with
    | nil => simp [ht] at h
    | cons t rest =>
      simp only [ht] at h
      cases h
      cases t with
      | mk callback delay =>
        cases callback
        simp [Callback.run, checkServerStatus, statusInFlight, List.count_append]
  | clickSearch =>
    simp only [step] at h
    cases h
    by_cases hm : s.moviesLoaded = true <;>
      simp [searchBtn_onclick, fetchSearch, hm, statusInFlight, List.count_append]
  | clickRecommend =>
    simp only [step] at h
    cases h
    by_cases hm : s.moviesLoaded = true <;>
      simp [recommendBtn_onclick, fetchFilteredRecommendations, hm, statusInFlight,
        List.count_append]
  | typeSearch text => simp only [step] at h; cases h; simp [statusInFlight]
  | selectGenre value => simp only [step] at h; cases h; simp [statusInFlight]
  | selectRegion value => simp only [step] at h; cases h; simp [statusInFlight]
  | selectLanguage value => simp only [step] at h; cases h; simp [statusInFlight]
  | storage key value => simp only [step] at h; cases h; simp [statusInFlight]

theorem startup_poller (s : State) (h : Initial s) :
    (startup s).moviesLoaded = false ∧ statusInFlight (startup s) = 1
      ∧ (startup s).timers = [] ∧ statusCalls (startup s) = 1
      ∧ personalCalls (startup s) = 0 := by
  obtain ⟨hm, -, hr, ht, ha⟩ := h
  simp [startup, checkServerStatus, populateSelects, statusInFlight, statusCalls,
    personalCalls, hm, hr, ht, ha, getRequest]
  decide

/-- While `moviesLoaded` is false, exactly one status call is in flight or
scheduled; once it is true, none is. -/
theorem reachable_poller (P : Platform) (s : State) (h : Reachable P s) :
    statusInFlight s + s.timers.length = if s.moviesLoaded then 0 else 1 := by
  induction h with
  | start s₀ h₀ =>
    obtain ⟨hm, hf, ht, -, -⟩ := startup_poller s₀ h₀
    simp [hm, hf, ht]
  | next s₁ s₂ e _ hstep ih =>
    have hm := step_moviesLoaded P s₁ s₂ e hstep
    have hp := step_poller P s₁ s₂ e hstep
    cases e with
    | statusReply reply =>
      simp only [Event.reportsLoaded] at hm
      obtain ⟨hpos, hf, ht⟩ := hp
      rw [hm]
      cases h₁ : s₁.moviesLoaded <;> cases hr : reply.reportsLoaded <;>
        simp only [h₁, hr, Bool.or_false, Bool.or_true, Bool.false_eq_true, if_true, if_false,
          ite_true, ite_false] at ih ht ⊢ <;> omega
    | timerFires =>
      simp only [Event.reportsLoaded, Bool.or_false] at hm
      obtain ⟨hf, ht⟩ := hp
      rw [hm]
      cases h₁ : s₁.moviesLoaded <;>
        simp only [h₁, Bool.false_eq_true, if_true, if_false, ite_true, ite_false] at ih ⊢ <;>
        omega
    | searchReply reply =>
      simp only [Event.reportsLoaded, Bool.or_false] at hm
      rw [hm, hp.1, hp.2]; exact ih
    | filteredReply reply =>
      simp only [Event.reportsLoaded, Bool.or_false] at hm
      rw [hm, hp.1, hp.2]; exact ih
    | personalReply reply =>
      simp only [Event.reportsLoaded, Bool.or_false] at hm
      rw [hm, hp.1, hp.2]; exact ih
    | clickSearch =>
      simp only [Event.reportsLoaded, Bool.or_false] at hm
      rw [hm, hp.1, hp.2]; exact ih
    | clickRecommend =>
      simp only [Event.reportsLoaded, Bool.or_false] at hm
      rw [hm, hp.1, hp.2]; exact ih
    | typeSearch text =>
      simp only [Event.reportsLoaded, Bool.or_false] at hm
      rw [hm, hp.1, hp.2]; exact ih
    | selectGenre value =>
      simp only [Event.reportsLoaded, Bool.or_false] at hm
      rw [hm, hp.1, hp.2]; exact ih
    | selectRegion value =>
      simp only [Event.reportsLoaded, Bool.or_false] at hm
      rw [hm, hp.1, hp.2]; exact ih
    | selectLanguage value =>
      simp only [Event.reportsLoaded, Bool.or_false] at hm
      rw [hm, hp.1, hp.2]; exact ih
    | storage key value =>
      simp only [Event.reportsLoaded, Bool.or_false] at hm
      rw [hm, hp.1, hp.2]; exact ih

theorem step_statusReply_notLoaded (P : Platform) (s : State) (reply : Reply)
    (hr : reply.reportsLoaded = false) (hm : s.moviesLoaded = false)
    (hf : statusInFlight s = 1) (ht : s.timers = []) :
    ∃ s', step P s (Event.statusReply reply) = some s'
      ∧ s'.moviesLoaded = false ∧ statusInFlight s' = 0 ∧ s'.timers.length = 1
      ∧ s'.requests = s.requests := by
  have hmem : Op.status ∈ s.awaiting := by
    apply List.count_pos_iff.mp
    unfold statusInFlight at hf
    omega
  obtain ⟨delay, text, heq, -⟩ := checkServerStatus_resume_notLoaded s reply hr
  refine ⟨checkServerStatus_resume s reply, by simp [step, hmem], ?_, ?_, ?_, ?_⟩
  · rw [heq]; exact hm
  · rw [heq]
    unfold statusInFlight at hf ⊢
    simp [List.count_erase_self, hf]
  · rw [heq]; simp [ht]
  · rw [heq]

theorem step_timerFires_scheduled (P : Platform) (s : State) (ht : s.timers.length = 1)
    (hf : statusInFlight s = 0) :
    ∃ s', step P s Event.timerFires = some s'
      ∧ s'.moviesLoaded = s.moviesLoaded ∧ statusInFlight s' = 1 ∧ s'.timers = []
      ∧ statusCalls s' = statusCalls s + 1 ∧ personalCalls s' = personalCalls s := by
  match htm : s.timers, ht with
  | [⟨Callback.checkServerStatus, delay⟩], _ =>
    refine ⟨checkServerStatus { s with timers := [] }, by simp [step, htm, Callback.run], rfl, ?_,
      rfl, ?_, ?_⟩
    · unfold statusInFlight at hf ⊢
      simp [checkServerStatus, List.count_append, hf]
    · simp [statusCalls, checkServerStatus, getRequest, List.filter_append]
    · simp [personalCalls, checkServerStatus, getRequest, List.filter_append]
      decide

theorem run_pollEvents (P : Platform) (rs : List Reply)
    (hrs : ∀ r ∈ rs, r.reportsLoaded = false) (hne : rs ≠ []) :
    ∀ s : State, s.moviesLoaded = false → statusInFlight s = 1 → s.timers = [] →
      ∃ s', run P s (pollEvents rs) = some s'
        ∧ s'.moviesLoaded = false ∧ statusInFlight s' = 0 ∧ s'.timers.length = 1
        ∧ statusCalls s' + 1 = statusCalls s + rs.length
        ∧ personalCalls s' = personalCalls s := by
  induction rs with
  | nil => exact absurd rfl hne
  | cons r rs ih =>
    intro s hm hf ht
    obtain ⟨s₁, hstep₁, hm₁, hf₁, ht₁, hreq₁⟩ :=
      step_statusReply_notLoaded P s r (hrs r (List.mem_cons_self r rs)) hm hf ht
    cases rs with
    | nil =>
      refine ⟨s₁, by simp [pollEvents, run, hstep₁], hm₁, hf₁, ht₁, ?_, ?_⟩
      · simp [statusCalls, hreq₁]
      · simp [personalCalls, hreq₁]
    | cons r' rs' =>
      obtain ⟨s₂, hstep₂, hm₂, hf₂, ht₂, hc₂, hp₂⟩ := step_timerFires_scheduled P s₁ ht₁ hf₁
      obtain ⟨s', hrun, hm', hf', ht', hc', hp'⟩ :=
        ih (fun x hx => hrs x (List.mem_cons_of_mem r hx)) (by simp) s₂ (hm₂.trans hm₁) hf₂ ht₂
      refine ⟨s', by simp [pollEvents, run, hstep₁, hstep₂, hrun], hm', hf', ht', ?_, ?_⟩
      · have : statusCalls s₁ = statusCalls s := by simp [statusCalls, hreq₁]
        simp only [List.length_cons] at hc' ⊢
        omega
      · have : personalCalls s₁ = personalCalls s := by simp [personalCalls, hreq₁]
        omega

/-- C5, as stated, fails for `n = 0`: right after start-up, before any status
reply, one status call has already been made and is in flight, and no retry
is scheduled. -/
theorem first_status_call_in_flight :
    run samplePlatform (startup blankPage) (pollEvents []) = some (startup blankPage)
      ∧ statusCalls (startup blankPage) = 1
      ∧ statusInFlight (startup blankPage) = 1
      ∧ statusScheduled (startup blankPage) = 0
      ∧ (startup blankPage).timers = [] := by
  refine ⟨rfl, ?_, ?_, ?_, rfl⟩ <;> decide

/-- C5, amended. The readiness poll has no cut-off. From start-up, after any
number of status replies none of which reports loaded (with the retry timer
firing between them), `moviesLoaded` is still false and exactly one status
call is in flight or scheduled; after `n > 0` such replies exactly `n` status
calls have been made and the retry that will make call `n + 1` is pending,
and it does make that call when it fires; before any reply the first call is
in flight. In every reachable state with `moviesLoaded` false exactly one
status call is in flight or scheduled. -/
theorem poll_unbounded (P : Platform) (s₀ : State) (rs : List Reply) (h₀ : Initial s₀)
    (hrs : ∀ r ∈ rs, r.reportsLoaded = false) :
    (∃ s, run P (startup s₀) (pollEvents rs) = some s
        ∧ s.moviesLoaded = false
        ∧ statusInFlight s + statusScheduled s = 1
        ∧ statusCalls s + statusScheduled s = rs.length + 1
        ∧ personalCalls s = 0
        ∧ (rs ≠ [] →
            statusScheduled s = 1 ∧ statusInFlight s = 0 ∧ statusCalls s = rs.length
              ∧ ∃ s', step P s Event.timerFires = some s'
                  ∧ statusCalls s' = rs.length + 1 ∧ statusInFlight s' = 1
                  ∧ statusScheduled s' = 0))
      ∧ (∀ s, Reachable P s → s.moviesLoaded = false →
          statusInFlight s + statusScheduled s = 1) := by
  obtain ⟨hm, hf, ht, hc, hp⟩ := startup_poller s₀ h₀
  constructor
  · by_cases hne : rs = []
    · subst hne
      refine ⟨startup s₀, rfl, hm, ?_, ?_, hp, fun h => absurd rfl h⟩
      · rw [statusScheduled_eq, hf, ht]; rfl
      · rw [statusScheduled_eq, hc, ht]; rfl
    · obtain ⟨s, hrun, hm', hf', ht', hc', hp'⟩ :=
        run_pollEvents P rs hrs hne (startup s₀) hm hf ht
      refine ⟨s, hrun, hm', ?_, ?_, by omega, fun _ => ?_⟩
      · rw [statusScheduled_eq, hf', ht']
      · rw [statusScheduled_eq, ht']; omega
      · obtain ⟨s', hstep, -, hf'', ht'', hc'', -⟩ := step_timerFires_scheduled P s ht' hf'
        refine ⟨by rw [statusScheduled_eq, ht'], hf', by omega, s', hstep, by omega, hf'', ?_⟩
        rw [statusScheduled_eq, ht'']; rfl
  · intro s hs hml
    have := reachable_poller P s hs
    rw [statusScheduled_eq, this, hml]
    rfl

/-- C5, amended, for three replies: not loaded, a failed call, not JSON. -/
theorem poll_unbounded_witness :
    Initial blankPage
      ∧ (∀ r ∈ [loadingReply, Reply.rejected, Reply.unparsable], r.reportsLoaded = false)
      ∧ ∃ s, run samplePlatform (startup blankPage)
            (pollEvents [loadingReply, Reply.rejected, Reply.unparsable]) = some s
          ∧ s.moviesLoaded = false
          ∧ statusInFlight s + statusScheduled s = 1
          ∧ statusCalls s + statusScheduled s = 3 + 1 :=
  have h₀ : Initial blankPage := ⟨rfl, rfl, rfl, rfl, rfl⟩
  have hrs : ∀ r ∈ [loadingReply, Reply.rejected, Reply.unparsable],
      r.reportsLoaded = false := by
    intro r hr
    simp only [List.mem_cons, List.mem_singleton, List.not_mem_nil, or_false] at hr
    rcases hr with rfl | rfl | rfl <;> rfl
  ⟨h₀, hrs,
    (poll_unbounded samplePlatform blankPage [loadingReply, Reply.rejected, Reply.unparsable]
      h₀ hrs).1.imp fun _ hs => ⟨hs.1, hs.2.1, hs.2.2.1, hs.2.2.2.1⟩⟩

/-- C3, as stated, fails: with a stored genre history that is not JSON, the
step for a reply that reports loaded sets `moviesLoaded` and sends no
personalized-recommendation request. -/
theorem ready_step_without_request :
    loadedReply.reportsLoaded = true
      ∧ (checkServerStatus_resume (startup brokenStoragePage) loadedReply).moviesLoaded = true
      ∧ (checkServerStatus_resume (startup brokenStoragePage) loadedReply).requests
        = (startup brokenStoragePage).requests
      ∧ personalCalls (checkServerStatus_resume (startup brokenStoragePage) loadedReply) = 0 := by
  refine ⟨rfl, rfl, rfl, ?_⟩
  decide

/-- C3, amended. When the reply to a status call reports loaded, the step sets
`moviesLoaded`, hides the loading screen and calls
`fetchPersonalRecommendations` once: that sends exactly one personalized
request when the three stored histories are absent, empty or JSON text, and
none when one of them is not JSON. The step makes no status call and schedules
no timer, so in a reachable state the poll is over; and whatever the reply to
the personalized request, no status call is made or scheduled for it. -/
theorem checkServerStatus_ready (P : Platform) (s : State) (d : Json)
    (h : (Reply.data d).reportsLoaded = true) :
    (checkServerStatus_resume s (Reply.data d)).moviesLoaded = true
      ∧ (checkServerStatus_resume s (Reply.data d)).loadingScreenDisplay = "none"
      ∧ checkServerStatus_resume s (Reply.data d)
        = fetchPersonalRecommendations
            { s with
              awaiting := s.awaiting.erase Op.status
              moviesLoaded := true
              loadingScreenDisplay := "none" }
      ∧ (∀ g r l, JSON_parse (storedOrEmpty s "userGenreHistory") = some g →
          JSON_parse (storedOrEmpty s "userRegionHistory") = some r →
          JSON_parse (storedOrEmpty s "userLanguageHistory") = some l →
          (checkServerStatus_resume s (Reply.data d)).requests
              = s.requests ++ [personalRequest g r l]
            ∧ personalCalls (checkServerStatus_resume s (Reply.data d)) = personalCalls s + 1)
      ∧ ((JSON_parse (storedOrEmpty s "userGenreHistory") = none
            ∨ JSON_parse (storedOrEmpty s "userRegionHistory") = none
            ∨ JSON_parse (storedOrEmpty s "userLanguageHistory") = none) →
          (checkServerStatus_resume s (Reply.data d)).requests = s.requests)
      ∧ (checkServerStatus_resume s (Reply.data d)).timers = s.timers
      ∧ statusCalls (checkServerStatus_resume s (Reply.data d)) = statusCalls s
      ∧ statusInFlight (checkServerStatus_resume s (Reply.data d)) = statusInFlight s - 1
      ∧ (Reachable P s → Op.status ∈ s.awaiting →
          statusInFlight (checkServerStatus_resume s (Reply.data d)) = 0
            ∧ statusScheduled (checkServerStatus_resume s (Reply.data d)) = 0)
      ∧ (∀ reply,
          (fetchPersonalRecommendations_resume P (checkServerStatus_resume s (Reply.data d))
              reply).timers = s.timers
            ∧ statusCalls (fetchPersonalRecommendations_resume P
                (checkServerStatus_resume s (Reply.data d)) reply) = statusCalls s
            ∧ statusInFlight (fetchPersonalRecommendations_resume P
                (checkServerStatus_resume s (Reply.data d)) reply) = statusInFlight s - 1
            ∧ (fetchPersonalRecommendations_resume P
                (checkServerStatus_resume s (Reply.data d)) reply).moviesLoaded = true) := by
  have heq := checkServerStatus_resume_ready s d h
  have hml : (checkServerStatus_resume s (Reply.data d)).moviesLoaded = true := by
    rw [heq, fetchPersonalRecommendations_moviesLoaded]
  have htimers : (checkServerStatus_resume s (Reply.data d)).timers = s.timers := by
    rw [heq, fetchPersonalRecommendations_timers]
  have hflight : statusInFlight (checkServerStatus_resume s (Reply.data d))
      = statusInFlight s - 1 := by
    rw [heq, fetchPersonalRecommendations_statusInFlight]
    simp [statusInFlight, List.count_erase_self]
  have hcalls : statusCalls (checkServerStatus_resume s (Reply.data d)) = statusCalls s := by
    rw [heq]
    rcases fetchPersonalRecommendations_cases
      { s with
        awaiting := s.awaiting.erase Op.status
        moviesLoaded := true
        loadingScreenDisplay := "none" } with ⟨g, r, l, -, -, -, hq⟩ | ⟨-, hq⟩
    · rw [hq]
      simp only [statusCalls, List.filter_append, List.length_append]
      have : ([personalRequest g r l].filter fun q => q.url = API_URL ++ "/status") = [] := by
        have hne : ¬ (API_URL ++ "/recommend/personal" = API_URL ++ "/status") := by decide
        simp [personalRequest, hne]
      rw [this]
      rfl
    · rw [hq]
      rfl
  refine ⟨hml, ?_, heq, ?_, ?_, htimers, hcalls, hflight, ?_, ?_⟩
  · rw [heq]
    rcases fetchPersonalRecommendations_cases
      { s with
        awaiting := s.awaiting.erase Op.status
        moviesLoaded := true
        loadingScreenDisplay := "none" } with ⟨g, r, l, -, -, -, hq⟩ | ⟨-, hq⟩ <;> rw [hq]
  · intro g r l hg hr hl
    have hreq : (checkServerStatus_resume s (Reply.data d)).requests
        = s.requests ++ [personalRequest g r l] := by
      rw [heq]
      simp only [fetchPersonalRecommendations, storedOrEmpty] at hg hr hl ⊢
      simp only [hg, hr, hl]
    refine ⟨hreq, ?_⟩
    simp only [personalCalls, hreq, List.filter_append, List.length_append]
    have : ([personalRequest g r l].filter
        fun q => q.url = API_URL ++ "/recommend/personal") = [personalRequest g r l] := by
      simp [personalRequest]
    rw [this]
    rfl
  · intro hnone
    rw [heq]
    simp only [fetchPersonalRecommendations, storedOrEmpty] at hnone ⊢
    rcases hnone with hn | hn | hn
    · simp only [hn]
    · simp only [hn]
      split <;> first | rfl | simp_all
    · simp only [hn]
      split <;> first | rfl | simp_all
  · intro hreach hmem
    have hinv := reachable_poller P s hreach
    have hpos : 0 < statusInFlight s := List.count_pos_iff.mpr hmem
    have hlen : s.timers.length = 0 ∧ statusInFlight s = 1 := by
      cases hm : s.moviesLoaded <;>
        simp only [hm, Bool.false_eq_true, if_true, if_false, ite_true, ite_false] at hinv <;>
        omega
    rw [statusScheduled_eq, htimers, hflight]
    omega
  · intro reply
    obtain ⟨ht, hr, ha⟩ :=
      fetchPersonalRecommendations_resume_poller P (checkServerStatus_resume s (Reply.data d))
        reply
    refine ⟨ht.trans htimers, ?_, ?_, ?_⟩
    · rw [← hcalls]
      simp only [statusCalls, hr]
    · rw [← hflight]
      simp only [statusInFlight, ha]
      exact count_status_erase _ _ (by decide)
    · rw [fetchPersonalRecommendations_resume_moviesLoaded, hml]

/-- C3, amended, at a reply with `loaded: true` right after start-up on
a page with empty storage. -/
theorem checkServerStatus_ready_witness :
    loadedReply.reportsLoaded = true
      ∧ (checkServerStatus_resume (startup blankPage) loadedReply).moviesLoaded = true
      ∧ (checkServerStatus_resume (startup blankPage) loadedReply).loadingScreenDisplay = "none"
      ∧ (checkServerStatus_resume (startup blankPage) loadedReply).timers
        = (startup blankPage).timers
      ∧ personalCalls (checkServerStatus_resume (startup blankPage) loadedReply)
        = personalCalls (startup blankPage) + 1 :=
  have h := checkServerStatus_ready samplePlatform (startup blankPage)
    (Json.obj [("loaded", Json.bool true)]) rfl
  ⟨rfl, h.1, h.2.1, h.2.2.2.2.2.1,
    (h.2.2.2.1 (Json.arr []) (Json.arr []) (Json.arr []) rfl rfl rfl).2⟩

/-! ### `fetchPersonalRecommendations` -/

end RecommenEngine
